import Mathlib

/-!
Shallow embedding of the AIS vessel tracker (capture.py and server.py).

Modelling conventions:
* UTC timestamps (Python `datetime.utcnow().isoformat() + 'Z'`) are modelled
  as integers; the code stores them as fixed-format ISO strings whose
  lexicographic order agrees with chronological order, so the SQL string
  comparisons on `last_updated` become integer comparisons.
* SQLite REAL columns (latitude, longitude, speed, course, draught) carry
  opaque numeric payloads that the merge logic never computes with; they are
  modelled as `Int`.
* The `vessels` SQL table is a list of rows; its PRIMARY KEY lookup is
  `List.find?` on the `mmsi` column, an SQL `UPDATE ... WHERE mmsi = ?`
  maps every matching row, and an `INSERT` prepends a row.
* Python dictionary values that may be absent (`'f' in data`) are `Option`
  fields of a record.
-/

/-- A row of the `vessels` table (schema in `init_db`, capture.py lines
38-60).  `last_updated` is always written on insert, so it is total. -/
structure Vessel where
  mmsi : String
  name : Option String
  latitude : Option Int
  longitude : Option Int
  speed : Option Int
  course : Option Int
  heading : Option Int
  timestamp : Option Int
  vessel_type : Option String
  callsign : Option String
  imo : Option String
  dimension_bow : Option Int
  dimension_stern : Option Int
  dimension_port : Option Int
  dimension_starboard : Option Int
  draught : Option Int
  destination : Option String
  nav_status : Option String
  last_updated : Int
deriving DecidableEq, Repr

/-- The sparse `vessel_data` dictionary that `main` (capture.py lines
244-268) hands to `update_vessel`: each field is present (`some`) or absent
(`none`), exactly as a key is present or absent in the Python dict. -/
structure VesselUpdate where
  mmsi : Option String := none
  name : Option String := none
  latitude : Option Int := none
  longitude : Option Int := none
  speed : Option Int := none
  course : Option Int := none
  heading : Option Int := none
  vessel_type : Option String := none
  callsign : Option String := none
  destination : Option String := none
  nav_status : Option String := none
deriving DecidableEq, Repr

/-- The diagnostics key/value table; `update_diagnostic` stores `str(value)`,
so values are strings (the `updated` column is never read and is omitted). -/
def DiagTable : Type := List (String × String)

/-- In-memory image of the database state the capture loop mutates, plus the
loop's `message_count` local (capture.py line 232). -/
structure IngestState where
  vessels : List Vessel
  diags : List (String × String)
  messageCount : Nat
deriving DecidableEq, Repr

/-- `str(value)` for the integer timestamps of the model. -/
def timeStr (t : Int) : String := toString t

/-- PRIMARY KEY lookup `SELECT ... FROM vessels WHERE mmsi = ?`. -/
def findVessel (vs : List Vessel) (m : String) : Option Vessel :=
  vs.find? (fun v => v.mmsi = m)

/-- Diagnostics lookup by key. -/
def getDiag (ds : List (String × String)) (k : String) : Option String :=
  (ds.find? (fun p => p.1 = k)).map (fun p => p.2)

/-- `update_diagnostic` (capture.py lines 78-91): `INSERT OR REPLACE` of one
key/value pair. -/
def update_diagnostic (ds : List (String × String)) (k v : String) :
    List (String × String) :=
  (k, v) :: ds.filter (fun p => p.1 ≠ k)

/-- The UPDATE branch of `update_vessel` (capture.py lines 110-152): each
field present in `data` is overwritten — except `name`, written only when
present AND truthy (non-empty, line 115) — and `last_updated` is always
stamped.  The `timestamp`, `imo`, dimension and `draught` columns are not in
the UPDATE field list and stay unchanged. -/
def updateExisting (v : Vessel) (data : VesselUpdate) (now : Int) : Vessel :=
  { v with
    name := match data.name with
      | some s => if s = "" then v.name else some s
      | none => v.name
    latitude := match data.latitude with
      | some x => some x
      | none => v.latitude
    longitude := match data.longitude with
      | some x => some x
      | none => v.longitude
    speed := match data.speed with
      | some x => some x
      | none => v.speed
    course := match data.course with
      | some x => some x
      | none => v.course
    heading := match data.heading with
      | some x => some x
      | none => v.heading
    vessel_type := match data.vessel_type with
      | some x => some x
      | none => v.vessel_type
    callsign := match data.callsign with
      | some x => some x
      | none => v.callsign
    destination := match data.destination with
      | some x => some x
      | none => v.destination
    nav_status := match data.nav_status with
      | some x => some x
      | none => v.nav_status
    last_updated := now }

/-- The INSERT branch of `update_vessel` (capture.py lines 153-173).  The
column list is `mmsi, name, latitude, longitude, speed, course, heading,
timestamp, vessel_type, callsign, nav_status, last_updated`: `destination`
is not among the inserted columns, and the text fields default to the empty
string (`data.get(field, '')`) while the numeric ones default to NULL
(`data.get(field)`). -/
def insertNew (m : String) (data : VesselUpdate) (now : Int) : Vessel :=
  { mmsi := m
    name := some (data.name.getD "")
    latitude := data.latitude
    longitude := data.longitude
    speed := data.speed
    course := data.course
    heading := data.heading
    timestamp := some now
    vessel_type := some (data.vessel_type.getD "")
    callsign := some (data.callsign.getD "")
    imo := none
    dimension_bow := none
    dimension_stern := none
    dimension_port := none
    dimension_starboard := none
    draught := none
    destination := none
    nav_status := some (data.nav_status.getD "")
    last_updated := now }

/-- Truthiness of the Python `mmsi` value: absent (`None`) and the empty
string are falsy. -/
def truthy : Option String → Bool
  | none => false
  | some s => s ≠ ""

/-- `update_vessel` (capture.py lines 93-182): guard on a truthy `mmsi`
(lines 99-102), then UPDATE or INSERT; on success the `last_message_time`
diagnostic is stamped with the same `now` (line 179). -/
def update_vessel (st : IngestState) (data : VesselUpdate) (now : Int) :
    IngestState :=
  match data.mmsi with
  | none => st
  | some m =>
    if m = "" then st
    else
      let vessels :=
        match findVessel st.vessels m with
        | some _ => st.vessels.map
            (fun x => if x.mmsi = m then updateExisting x data now else x)
        | none => insertNew m data now :: st.vessels
      { st with
        vessels := vessels
        diags := update_diagnostic st.diags "last_message_time" (timeStr now) }

example :
    (update_vessel ⟨[], [], 0⟩ { mmsi := some "1", latitude := some 7 } 5).vessels =
      [insertNew "1" { mmsi := some "1", latitude := some 7 } 5] := by
  decide

/-- Python `str.strip()`: drop leading and trailing whitespace, modelled on
the string's character list. -/
def pyStrip (s : String) : String :=
  ⟨((s.data.dropWhile Char.isWhitespace).reverse.dropWhile
      Char.isWhitespace).reverse⟩

/-- A decoded JSON record from the AIS-catcher stream: the keys `main`
(capture.py lines 244-268) reads, each present or absent. -/
structure AisMsg where
  mmsi : Option String := none
  lat : Option Int := none
  lon : Option Int := none
  speed : Option Int := none
  course : Option Int := none
  heading : Option Int := none
  shipname : Option String := none
  shiptype : Option String := none
  callsign : Option String := none
  destination : Option String := none
  status : Option String := none
deriving DecidableEq, Repr

/-- Building `vessel_data` from the decoded record (capture.py lines
244-268): positions and motion fields copied, free-text fields stripped of
surrounding whitespace. -/
def extractVesselData (d : AisMsg) : VesselUpdate :=
  { mmsi := d.mmsi
    latitude := d.lat
    longitude := d.lon
    speed := d.speed
    course := d.course
    heading := d.heading
    name := d.shipname.map pyStrip
    vessel_type := d.shiptype
    callsign := d.callsign.map pyStrip
    destination := d.destination.map pyStrip
    nav_status := d.status }

/-- One line of the decoder's stdout, as `main`'s loop (capture.py lines
236-283) classifies it: after `strip()` it is empty, starts with `#`, fails
`json.loads` (`JSONDecodeError` is caught and the loop continues), or parses
to a JSON record. -/
inductive RawLine where
  | blank : RawLine
  | comment : RawLine
  | notJson : RawLine
  | record : AisMsg → RawLine
deriving DecidableEq, Repr

/-- A line that leads to a vessel write: a parsed record whose `mmsi` is
truthy (capture.py line 270). -/
def isValidRecord : RawLine → Bool
  | RawLine.record d => truthy d.mmsi
  | _ => false

/-- The body of `main`'s per-line processing (capture.py lines 236-283):
blank, comment and non-JSON lines are skipped; a record with a truthy `mmsi`
is upserted, `message_count` is incremented, and every 100th message the
`total_messages` diagnostic is written. -/
def processLine (st : IngestState) (now : Int) : RawLine → IngestState
  | RawLine.blank => st
  | RawLine.comment => st
  | RawLine.notJson => st
  | RawLine.record d =>
    let vd := extractVesselData d
    if truthy vd.mmsi then
      let st1 := update_vessel st vd now
      let mc := st1.messageCount + 1
      let st2 := { st1 with messageCount := mc }
      if mc % 100 = 0 then
        { st2 with
          diags := update_diagnostic st2.diags "total_messages" (toString mc) }
      else st2
    else st

/-- The ingestion loop over a finite stream of lines, each observed at its
own `utcnow`. -/
def runLoop (st : IngestState) (lines : List (RawLine × Int)) : IngestState :=
  lines.foldl (fun s p => processLine s p.2 p.1) st

/-- The trailing visibility/eviction window: 48 hours, in the seconds of the
integer time model (server.py lines 64 and 182). -/
def windowSecs : Int := 48 * 3600

/-- The `/api/vessels` query `get_vessels` (server.py lines 54-106): rows
with a known position and `last_updated` strictly newer than `now - 48h`,
ordered most-recently-updated first (`ORDER BY last_updated DESC`; the model
sorts the filtered rows, which is all SQL guarantees). -/
def get_vessels (vs : List Vessel) (now : Int) : List Vessel :=
  let cutoff := now - windowSecs
  List.insertionSort (fun a b => b.last_updated ≤ a.last_updated)
    (vs.filter (fun v => v.latitude.isSome && v.longitude.isSome &&
      decide (cutoff < v.last_updated)))

/-- The `/api/cleanup` endpoint `cleanup_old_data` (server.py lines
176-189): `DELETE FROM vessels WHERE last_updated < cutoff`; the deleted
`rowcount` is reported.  Returns (remaining rows, reported count). -/
def cleanup_old_data (vs : List Vessel) (now : Int) : List Vessel × Nat :=
  let cutoff := now - windowSecs
  (vs.filter (fun v => ¬ (v.last_updated < cutoff)),
   (vs.filter (fun v => v.last_updated < cutoff)).length)

/-- Parsing a stored `last_message_time` string back to a time
(`datetime.fromisoformat`, server.py line 136); in the integer time model
this is integer parsing, `none` when unparsable. -/
def parseTime (s : String) : Option Int := s.toInt?

/-- The aggregate the `/api/diagnostics` handler returns.  The Python dict
in the fallback branch (server.py lines 169-174) carries only four keys, so
each normal-path-only entry is optional. -/
structure DiagStatus where
  error : Option String
  vessel_count : Nat
  db_size_mb : Int
  last_message : Option String
  seconds_since_message : Option Int
  rtl_sdr_connected : Bool
  ais_catcher_status : Option String
  total_messages : Option String
  recent_errors : Option (List String)
deriving DecidableEq, Repr

/-- The environment `/api/diagnostics` reads, with each fallible external
step as an `Except` (a `.error` is a raised exception): the database
connection plus its two SELECTs, the store file size, the `lsusb` hardware
probe, and the error-log read (whose failure is caught by the handler's
inner `try`, server.py lines 146-151, and so never reaches the outer one). -/
structure DiagEnv where
  db : Except String (List Vessel × List (String × String))
  dbSizeMb : Except String Int
  rtlProbe : Except String Bool
  logRead : Except String (List String)
  now : Int

/-- Last `n` elements of a list (Python `lines[-n:]`). -/
def lastN (n : Nat) (xs : List α) : List α :=
  xs.drop (xs.length - n)

/-- The body of `get_diagnostics` inside the outer `try` (server.py lines
111-166).  The `last_message_time` parse failure and the log-read failure
are handled by inner fallbacks exactly as in the source. -/
def get_diagnostics_body (env : DiagEnv) : Except String DiagStatus := do
  let dbData ← env.db
  let vessel_count := (dbData.1.filter (fun v => v.latitude.isSome)).length
  let db_size ← env.dbSizeMb
  let diagnostics := dbData.2
  let rtl ← env.rtlProbe
  let lastMsg := getDiag diagnostics "last_message_time"
  let lastMsgStr := lastMsg.getD "Never"
  let seconds_ago : Int :=
    match lastMsg with
    | none => 999999
    | some s =>
      match parseTime s with
      | some t => env.now - t
      | none => 999999
  let errors : List String :=
    match env.logRead with
    | Except.ok ls => lastN 10 ls
    | Except.error _ => []
  pure {
    error := none
    vessel_count := vessel_count
    db_size_mb := db_size
    last_message := some lastMsgStr
    seconds_since_message := some seconds_ago
    rtl_sdr_connected := rtl
    ais_catcher_status := some ((getDiag diagnostics "ais_catcher_status").getD "Unknown")
    total_messages := some ((getDiag diagnostics "total_messages").getD "0")
    recent_errors := some (if errors.isEmpty then [] else lastN 3 errors) }

/-- `get_diagnostics` (server.py lines 108-174): the body wrapped in the
outer `try`; any raised fault becomes the zeroed fallback response carrying
the error text. -/
def get_diagnostics (env : DiagEnv) : DiagStatus :=
  match get_diagnostics_body env with
  | Except.ok r => r
  | Except.error e =>
    { error := some e
      vessel_count := 0
      db_size_mb := 0
      last_message := none
      seconds_since_message := none
      rtl_sdr_connected := false
      ais_catcher_status := none
      total_messages := none
      recent_errors := none }

/-- The two fixed log paths as a tiny file system: the current log and the
single `.old` backup, each absent or a list of lines. -/
structure LogFS where
  log : Option (List String)
  backup : Option (List String)
deriving DecidableEq, Repr

/-- `os.path.getsize` of a log: total bytes, one newline per line. -/
def logSize (ls : List String) : Nat :=
  (ls.map (fun l => l.length + 1)).sum

/-- The rotation threshold `MAX_LOG_SIZE = 10 * 1024 * 1024` (capture.py
line 16). -/
def MAX_LOG_SIZE : Nat := 10 * 1024 * 1024

/-- `log_error` (capture.py lines 18-31): if the current log exists and
exceeds the threshold, the old backup is removed, the log becomes the
backup, and the append then creates a fresh log; otherwise the line is
appended to the existing (or fresh) log. -/
def log_error (fs : LogFS) (ts msg : String) : LogFS :=
  let line := "[" ++ ts ++ "] " ++ msg
  let fs1 : LogFS :=
    match fs.log with
    | some c =>
      if logSize c > MAX_LOG_SIZE then { log := none, backup := some c }
      else fs
    | none => fs
  match fs1.log with
  | some c => { fs1 with log := some (c ++ [line]) }
  | none => { fs1 with log := some [line] }

example : pyStrip "  TEST VESSEL  " = "TEST VESSEL" := by decide
example : pyStrip "   " = "" := by decide

/-! ## Helper notions for the merge claims -/

/-- Overwrite-when-present: the per-field step of the UPDATE branch. -/
def ow {α : Type} (f : VesselUpdate → Option α) (c : Option α)
    (u : VesselUpdate) : Option α :=
  match f u with
  | some x => some x
  | none => c

/-- The value carried by the most recent update in `us` that includes the
field read by `f` (`none` when no update includes it). -/
def mostRecent {α : Type} (f : VesselUpdate → Option α)
    (us : List VesselUpdate) : Option α :=
  (us.reverse.find? (fun u => (f u).isSome)).bind f

/-- The effective incoming name of an update: present and non-empty
(capture.py line 115 requires the value to be truthy). -/
def nameVal (u : VesselUpdate) : Option String :=
  match u.name with
  | some s => if s = "" then none else some s
  | none => none

/-- A left fold of overwrite-when-present steps keeps the most recent
present value, or the initial one when the field never occurs. -/
theorem foldl_ow_eq_mostRecent {α : Type} (f : VesselUpdate → Option α) :
    ∀ (us : List VesselUpdate) (init : Option α),
      us.foldl (ow f) init =
        match mostRecent f us with
        | some x => some x
        | none => init := by
  intro us
  induction us with
  | nil => intro init; simp [mostRecent]
  | cons u rest ih =>
    intro init
    have hrev : (u :: rest).reverse = rest.reverse ++ [u] := by simp
    simp only [List.foldl_cons, ih]
    cases h : rest.reverse.find? (fun w => (f w).isSome) with
    | some w =>
      have hw := List.find?_some h
      simp only [] at hw
      cases hfw : f w with
      | none => rw [hfw] at hw; simp at hw
      | some x =>
        simp [mostRecent, hrev, List.find?_append, h, hfw]
    | none =>
      cases hfu : f u with
      | some x =>
        simp [mostRecent, hrev, List.find?_append, h, List.find?, hfu, ow]
      | none =>
        simp [mostRecent, hrev, List.find?_append, h, List.find?, hfu, ow]

/-- The merged row after a run of UPDATE-branch applications. -/
def mergeFold (v : Vessel) (ps : List (VesselUpdate × Int)) : Vessel :=
  ps.foldl (fun w p => updateExisting w p.1 p.2) v

/-- Transport of a per-field step equation through `mergeFold`. -/
theorem mergeFold_field {α : Type} (f : VesselUpdate → Option α)
    (g : Vessel → Option α)
    (hg : ∀ v u t, g (updateExisting v u t) = ow f (g v) u) :
    ∀ (ps : List (VesselUpdate × Int)) (v : Vessel),
      g (mergeFold v ps) =
        match mostRecent f (ps.map Prod.fst) with
        | some x => some x
        | none => g v := by
  intro ps
  induction ps with
  | nil => intro v; simp [mergeFold, mostRecent]
  | cons p rest ih =>
    intro v
    have : mergeFold v (p :: rest) = mergeFold (updateExisting v p.1 p.2) rest := rfl
    rw [this, ih, hg]
    have := foldl_ow_eq_mostRecent f (p.1 :: rest.map Prod.fst) (g v)
    simp only [List.foldl_cons] at this
    rw [foldl_ow_eq_mostRecent f (rest.map Prod.fst) (ow f (g v) p.1)] at this
    simpa using this

theorem updateExisting_mmsi (v : Vessel) (u : VesselUpdate) (t : Int) :
    (updateExisting v u t).mmsi = v.mmsi := rfl

theorem updateExisting_latitude (v : Vessel) (u : VesselUpdate) (t : Int) :
    (updateExisting v u t).latitude = ow (fun w => w.latitude) v.latitude u := by
  cases h : u.latitude <;> simp [updateExisting, ow, h]

theorem updateExisting_longitude (v : Vessel) (u : VesselUpdate) (t : Int) :
    (updateExisting v u t).longitude = ow (fun w => w.longitude) v.longitude u := by
  cases h : u.longitude <;> simp [updateExisting, ow, h]

theorem updateExisting_speed (v : Vessel) (u : VesselUpdate) (t : Int) :
    (updateExisting v u t).speed = ow (fun w => w.speed) v.speed u := by
  cases h : u.speed <;> simp [updateExisting, ow, h]

theorem updateExisting_course (v : Vessel) (u : VesselUpdate) (t : Int) :
    (updateExisting v u t).course = ow (fun w => w.course) v.course u := by
  cases h : u.course <;> simp [updateExisting, ow, h]

theorem updateExisting_heading (v : Vessel) (u : VesselUpdate) (t : Int) :
    (updateExisting v u t).heading = ow (fun w => w.heading) v.heading u := by
  cases h : u.heading <;> simp [updateExisting, ow, h]

theorem updateExisting_vessel_type (v : Vessel) (u : VesselUpdate) (t : Int) :
    (updateExisting v u t).vessel_type =
      ow (fun w => w.vessel_type) v.vessel_type u := by
  cases h : u.vessel_type <;> simp [updateExisting, ow, h]

theorem updateExisting_callsign (v : Vessel) (u : VesselUpdate) (t : Int) :
    (updateExisting v u t).callsign = ow (fun w => w.callsign) v.callsign u := by
  cases h : u.callsign <;> simp [updateExisting, ow, h]

theorem updateExisting_destination (v : Vessel) (u : VesselUpdate) (t : Int) :
    (updateExisting v u t).destination =
      ow (fun w => w.destination) v.destination u := by
  cases h : u.destination <;> simp [updateExisting, ow, h]

theorem updateExisting_nav_status (v : Vessel) (u : VesselUpdate) (t : Int) :
    (updateExisting v u t).nav_status =
      ow (fun w => w.nav_status) v.nav_status u := by
  cases h : u.nav_status <;> simp [updateExisting, ow, h]

theorem updateExisting_name (v : Vessel) (u : VesselUpdate) (t : Int) :
    (updateExisting v u t).name = ow nameVal v.name u := by
  cases h : u.name with
  | none => simp [updateExisting, ow, nameVal, h]
  | some s =>
    by_cases hs : s = "" <;> simp [updateExisting, ow, nameVal, h, hs]

/-! ## Store-level tracking lemmas -/

theorem findVessel_map_update (m : String) (data : VesselUpdate) (now : Int) :
    ∀ (vs : List Vessel) (v : Vessel), findVessel vs m = some v →
      findVessel
        (vs.map (fun x => if x.mmsi = m then updateExisting x data now else x)) m =
        some (updateExisting v data now) := by
  intro vs
  induction vs with
  | nil => intro v h; simp [findVessel] at h
  | cons x rest ih =>
    intro v h
    by_cases hx : x.mmsi = m
    · have hv : x = v := by
        unfold findVessel at h
        rw [List.find?_cons_of_pos _ (by simpa using hx)] at h
        exact Option.some.inj h
      subst hv
      unfold findVessel
      rw [List.map_cons, if_pos hx,
        List.find?_cons_of_pos _ (by simpa [updateExisting_mmsi] using hx)]
    · unfold findVessel at h
      rw [List.find?_cons_of_neg _ (by simpa using hx)] at h
      unfold findVessel
      rw [List.map_cons, if_neg hx,
        List.find?_cons_of_neg _ (by simpa using hx)]
      exact ih v h

theorem insertNew_mmsi (m : String) (data : VesselUpdate) (now : Int) :
    (insertNew m data now).mmsi = m := rfl

/-- After `update_vessel` on an existing row, the row for `m` is the
UPDATE-branch image of the old row. -/
theorem findVessel_update_vessel_found (st : IngestState) (data : VesselUpdate)
    (now : Int) (m : String) (v : Vessel)
    (hm : data.mmsi = some m) (hne : m ≠ "")
    (hv : findVessel st.vessels m = some v) :
    findVessel (update_vessel st data now).vessels m =
      some (updateExisting v data now) := by
  simp only [update_vessel, hm, if_neg hne, hv]
  exact findVessel_map_update m data now st.vessels v hv

/-- After `update_vessel` on a fresh key, the row for `m` is the INSERT
image. -/
theorem findVessel_update_vessel_new (st : IngestState) (data : VesselUpdate)
    (now : Int) (m : String)
    (hm : data.mmsi = some m) (hne : m ≠ "")
    (hv : findVessel st.vessels m = none) :
    findVessel (update_vessel st data now).vessels m =
      some (insertNew m data now) := by
  simp only [update_vessel, hm, if_neg hne, hv]
  unfold findVessel
  rw [List.find?_cons_of_pos _ (by simp [insertNew_mmsi])]

/-- A finite sequence of partial updates pushed through `update_vessel` in
arrival order, each with its own clock reading. -/
def applyUpdates (st : IngestState) (ps : List (VesselUpdate × Int)) :
    IngestState :=
  ps.foldl (fun s p => update_vessel s p.1 p.2) st

theorem applyUpdates_track (m : String) (hne : m ≠ "") :
    ∀ (ps : List (VesselUpdate × Int)) (st : IngestState) (v : Vessel),
      (∀ p ∈ ps, p.1.mmsi = some m) →
      findVessel st.vessels m = some v →
      findVessel (applyUpdates st ps).vessels m = some (mergeFold v ps) := by
  intro ps
  induction ps with
  | nil => intro st v _ hv; simpa [applyUpdates, mergeFold] using hv
  | cons p rest ih =>
    intro st v hall hv
    have hm : p.1.mmsi = some m := hall p (List.mem_cons_self p rest)
    have step := findVessel_update_vessel_found st p.1 p.2 m v hm hne hv
    have : applyUpdates st (p :: rest) =
        applyUpdates (update_vessel st p.1 p.2) rest := rfl
    rw [this]
    have : mergeFold v (p :: rest) = mergeFold (updateExisting v p.1 p.2) rest := rfl
    rw [this]
    exact ih (update_vessel st p.1 p.2) (updateExisting v p.1 p.2)
      (fun q hq => hall q (List.mem_cons_of_mem p hq)) step

/-- The full history of one key starting from a store that does not know it:
the INSERT image of the first update, merged with the rest. -/
theorem applyUpdates_insert_track (m : String) (hne : m ≠ "")
    (p : VesselUpdate × Int) (rest : List (VesselUpdate × Int))
    (st : IngestState)
    (hall : ∀ q ∈ p :: rest, q.1.mmsi = some m)
    (hv : findVessel st.vessels m = none) :
    findVessel (applyUpdates st (p :: rest)).vessels m =
      some (mergeFold (insertNew m p.1 p.2) rest) := by
  have hm : p.1.mmsi = some m := hall p (List.mem_cons_self p rest)
  have step := findVessel_update_vessel_new st p.1 p.2 m hm hne hv
  have : applyUpdates st (p :: rest) =
      applyUpdates (update_vessel st p.1 p.2) rest := rfl
  rw [this]
  exact applyUpdates_track m hne rest (update_vessel st p.1 p.2)
    (insertNew m p.1 p.2)
    (fun q hq => hall q (List.mem_cons_of_mem p hq)) step

/-! ## Diagnostics-table lemmas -/

theorem getDiag_update_same (ds : List (String × String)) (k v : String) :
    getDiag (update_diagnostic ds k v) k = some v := by
  simp [getDiag, update_diagnostic, List.find?]

theorem find?_filter_ne (k k' : String) (h : k' ≠ k) :
    ∀ ds : List (String × String),
      (ds.filter (fun p => p.1 ≠ k)).find? (fun p => p.1 = k') =
        ds.find? (fun p => p.1 = k') := by
  intro ds
  induction ds with
  | nil => rfl
  | cons q rest ih =>
    by_cases hq : q.1 = k
    · have hq' : ¬ (q.1 = k') := by rw [hq]; exact fun hh => h hh.symm
      rw [List.filter_cons_of_neg (by simpa using hq),
        List.find?_cons_of_neg _ (by simpa using hq')]
      exact ih
    · by_cases hq' : q.1 = k'
      · rw [List.filter_cons_of_pos (by simpa using hq),
          List.find?_cons_of_pos _ (by simpa using hq'),
          List.find?_cons_of_pos _ (by simpa using hq')]
      · rw [List.filter_cons_of_pos (by simpa using hq),
          List.find?_cons_of_neg _ (by simpa using hq'),
          List.find?_cons_of_neg _ (by simpa using hq')]
        exact ih

theorem getDiag_update_ne (ds : List (String × String)) (k v k' : String)
    (h : k' ≠ k) :
    getDiag (update_diagnostic ds k v) k' = getDiag ds k' := by
  unfold getDiag update_diagnostic
  rw [List.find?_cons_of_neg _ (by simp only [decide_eq_true_eq]; exact fun hh => h hh.symm)]
  rw [find?_filter_ne k k' h ds]

/-- A vessel row with only the key and timestamps, for concrete witnesses. -/
def mkVessel (m : String) (lu : Int) : Vessel :=
  { mmsi := m
    name := none
    latitude := none
    longitude := none
    speed := none
    course := none
    heading := none
    timestamp := none
    vessel_type := none
    callsign := none
    imo := none
    dimension_bow := none
    dimension_stern := none
    dimension_port := none
    dimension_starboard := none
    draught := none
    destination := none
    nav_status := none
    last_updated := lu }

/-- A vessel row with a known position, for concrete witnesses. -/
def mkPosVessel (m : String) (la lo lu : Int) : Vessel :=
  { mkVessel m lu with latitude := some la, longitude := some lo }

/-! ## Claim theorems -/

/-- C3: for every store state and call time, the list-vessels query returns
exactly the rows whose `last_updated` lies within the trailing 48-hour
window measured from call time (strictly newer than `now - 48h`, so a row
updated at `T` is visible at `T + 47h59m` and gone at `T + 48h01m`) and
whose latitude and longitude are both known, ordered most-recently-updated
first. -/
theorem C3_vessel_query_contract (vs : List Vessel) (now : Int) :
    (∀ v : Vessel, v ∈ get_vessels vs now ↔
      (v ∈ vs ∧ v.latitude.isSome ∧ v.longitude.isSome ∧
        now - windowSecs < v.last_updated)) ∧
    (get_vessels vs now).Sorted
      (fun a b => b.last_updated ≤ a.last_updated) := by
  constructor
  · intro v
    have hperm := List.perm_insertionSort
      (fun a b : Vessel => b.last_updated ≤ a.last_updated)
      (vs.filter (fun v => v.latitude.isSome && v.longitude.isSome &&
        decide (now - windowSecs < v.last_updated)))
    rw [get_vessels, hperm.mem_iff, List.mem_filter]
    simp [and_assoc]
  · haveI : IsTotal Vessel (fun a b => b.last_updated ≤ a.last_updated) :=
      ⟨fun a b => le_total b.last_updated a.last_updated⟩
    haveI : IsTrans Vessel (fun a b => b.last_updated ≤ a.last_updated) :=
      ⟨fun _ _ _ hab hbc => le_trans hbc hab⟩
    exact List.sorted_insertionSort _ _

/-- C4: blank, comment and non-JSON lines, and parsed records without a
truthy identity key, are skipped: the per-line step returns the state
unchanged (exceptions are the caught-and-continue branches of the source,
modelled by the total skip cases), and `update_vessel` itself returns the
state unchanged on a falsy `mmsi`. -/
theorem C4_parser_tolerance (st : IngestState) (now : Int) (line : RawLine)
    (h : line = RawLine.blank ∨ line = RawLine.comment ∨
      line = RawLine.notJson ∨
      ∃ d, line = RawLine.record d ∧ truthy d.mmsi = false) :
    processLine st now line = st ∧
    (∀ u : VesselUpdate, truthy u.mmsi = false → update_vessel st u now = st) := by
  constructor
  · rcases h with h | h | h | ⟨d, hd, hm⟩
    · rw [h]; rfl
    · rw [h]; rfl
    · rw [h]; rfl
    · rw [hd]
      have : truthy (extractVesselData d).mmsi = false := hm
      simp [processLine, this]
  · intro u hu
    cases hmm : u.mmsi with
    | none => simp [update_vessel, hmm]
    | some s =>
      have hs : s = "" := by
        rw [hmm] at hu
        simpa [truthy] using hu
      subst hs
      simp [update_vessel, hmm]

/-- C4 witness: a comment line at a concrete state is a no-op, and so is an
update with no identity key. -/
theorem C4_parser_tolerance_witness :
    processLine ⟨[mkVessel "7" 0], [], 3⟩ 9 RawLine.comment =
      ⟨[mkVessel "7" 0], [], 3⟩ ∧
    (∀ u : VesselUpdate, truthy u.mmsi = false →
      update_vessel ⟨[mkVessel "7" 0], [], 3⟩ u 9 = ⟨[mkVessel "7" 0], [], 3⟩) :=
  C4_parser_tolerance ⟨[mkVessel "7" 0], [], 3⟩ 9 RawLine.comment
    (Or.inr (Or.inl rfl))

/-- C5: for every store and call time, cleanup deletes exactly the rows
strictly older than the 48-hour window, keeps every row that is not older
(in particular every strictly newer row), reports the number of older rows,
and the newer rows survive with their exact multiplicity. -/
theorem C5_eviction_count (vs : List Vessel) (now : Int) (N M : Nat)
    (hN : N = (vs.filter
      (fun v => v.last_updated < now - windowSecs)).length)
    (hM : M = (vs.filter
      (fun v => now - windowSecs < v.last_updated)).length) :
    (cleanup_old_data vs now).2 = N ∧
    (∀ v ∈ vs, ¬ (v.last_updated < now - windowSecs) →
      v ∈ (cleanup_old_data vs now).1) ∧
    (∀ v ∈ (cleanup_old_data vs now).1,
      v ∈ vs ∧ ¬ (v.last_updated < now - windowSecs)) ∧
    ((cleanup_old_data vs now).1.filter
      (fun v => now - windowSecs < v.last_updated)).length = M := by
  refine ⟨hN.symm, ?_, ?_, ?_⟩
  · intro v hv hnew
    exact List.mem_filter.mpr ⟨hv, by simpa using hnew⟩
  · intro v hv
    have := List.mem_filter.mp hv
    exact ⟨this.1, by simpa using this.2⟩
  · rw [hM]
    unfold cleanup_old_data
    rw [List.filter_filter]
    congr 1
    apply List.filter_congr
    intro v _
    by_cases h : now - windowSecs < v.last_updated
    · have h2 : ¬ (v.last_updated < now - windowSecs) := by omega
      simp [h, h2]
    · simp [h]

/-- C5 witness: one row older than the window and one newer; exactly the old
one is removed and the count is 1. -/
theorem C5_eviction_count_witness :
    (cleanup_old_data [mkVessel "1" 0, mkVessel "2" 150000] 200000).2 = 1 ∧
    (∀ v ∈ [mkVessel "1" 0, mkVessel "2" 150000],
      ¬ (v.last_updated < 200000 - windowSecs) →
      v ∈ (cleanup_old_data [mkVessel "1" 0, mkVessel "2" 150000] 200000).1) ∧
    (∀ v ∈ (cleanup_old_data [mkVessel "1" 0, mkVessel "2" 150000] 200000).1,
      v ∈ [mkVessel "1" 0, mkVessel "2" 150000] ∧
      ¬ (v.last_updated < 200000 - windowSecs)) ∧
    ((cleanup_old_data [mkVessel "1" 0, mkVessel "2" 150000] 200000).1.filter
      (fun v => 200000 - windowSecs < v.last_updated)).length = 1 :=
  C5_eviction_count [mkVessel "1" 0, mkVessel "2" 150000] 200000 1 1
    (by decide) (by decide)

/-- C6: whenever the diagnostics handler's body raises, the endpoint
returns the zeroed fallback carrying the error description instead of
propagating the fault. -/
theorem C6_diagnostics_never_fails (env : DiagEnv) (e : String)
    (h : get_diagnostics_body env = Except.error e) :
    get_diagnostics env =
      { error := some e
        vessel_count := 0
        db_size_mb := 0
        last_message := none
        seconds_since_message := none
        rtl_sdr_connected := false
        ais_catcher_status := none
        total_messages := none
        recent_errors := none } := by
  simp [get_diagnostics, h]

/-- A concrete environment whose database connection raises. -/
def failingEnv : DiagEnv :=
  { db := Except.error "database is locked"
    dbSizeMb := Except.ok 1
    rtlProbe := Except.ok true
    logRead := Except.ok []
    now := 0 }

/-- C6 witness: the fallback response at a concrete failing environment. -/
theorem C6_diagnostics_never_fails_witness :
    get_diagnostics failingEnv =
      { error := some "database is locked"
        vessel_count := 0
        db_size_mb := 0
        last_message := none
        seconds_since_message := none
        rtl_sdr_connected := false
        ais_catcher_status := none
        total_messages := none
        recent_errors := none } :=
  C6_diagnostics_never_fails failingEnv "database is locked" rfl

/-- The rotation condition of `log_error`: the current log exists and its
size exceeds the threshold (capture.py line 22). -/
def oversize : Option (List String) → Bool
  | some c => decide (logSize c > MAX_LOG_SIZE)
  | none => false

/-- C8: one append either rotates — the old backup is discarded, the current
log becomes the (single) backup, and the appended line starts a fresh log —
exactly when the current log exceeds the threshold, or otherwise appends in
place leaving the backup untouched.  The model's fixed `log`/`backup` slots
mirror the two fixed file paths, so at most one backup ever exists. -/
theorem C8_log_rotation (fs : LogFS) (ts msg : String) :
    log_error fs ts msg =
      { log := some ((if oversize fs.log then [] else fs.log.getD []) ++
          ["[" ++ ts ++ "] " ++ msg])
        backup := if oversize fs.log then fs.log else fs.backup } := by
  cases hl : fs.log with
  | none => simp [log_error, oversize, hl]
  | some c =>
    by_cases hs : logSize c > MAX_LOG_SIZE
    · simp [log_error, oversize, hl, hs]
    · simp [log_error, oversize, hl, hs]

/-- C9: on an existing row, an update whose name is present but empty leaves
the stored name unchanged; a present non-empty name does overwrite; and the
other text fields (callsign here) are overwritten even by an empty value. -/
theorem C9_empty_name_not_written (st : IngestState) (u : VesselUpdate)
    (now : Int) (m : String) (v : Vessel)
    (hm : u.mmsi = some m) (hne : m ≠ "")
    (hv : findVessel st.vessels m = some v) :
    (findVessel (update_vessel st u now).vessels m =
      some (updateExisting v u now)) ∧
    (u.name = some "" → (updateExisting v u now).name = v.name) ∧
    (∀ s, u.name = some s → s ≠ "" → (updateExisting v u now).name = some s) ∧
    (u.callsign = some "" → (updateExisting v u now).callsign = some "") := by
  refine ⟨findVessel_update_vessel_found st u now m v hm hne hv, ?_, ?_, ?_⟩
  · intro hname; simp [updateExisting, hname]
  · intro s hname hs; simp [updateExisting, hname, hs]
  · intro hcs; simp [updateExisting, hcs]

/-- C9 witness: an existing row "9" hit by an update with empty name and
empty callsign keeps its name but gets the empty callsign. -/
theorem C9_empty_name_not_written_witness :
    (findVessel (update_vessel ⟨[mkVessel "9" 0], [], 0⟩
        { mmsi := some "9", name := some "", callsign := some "" } 5).vessels "9" =
      some (updateExisting (mkVessel "9" 0)
        { mmsi := some "9", name := some "", callsign := some "" } 5)) ∧
    (({ mmsi := some "9", name := some "", callsign := some "" } :
        VesselUpdate).name = some "" →
      (updateExisting (mkVessel "9" 0)
        { mmsi := some "9", name := some "", callsign := some "" } 5).name =
        (mkVessel "9" 0).name) ∧
    (∀ s, ({ mmsi := some "9", name := some "", callsign := some "" } :
        VesselUpdate).name = some s → s ≠ "" →
      (updateExisting (mkVessel "9" 0)
        { mmsi := some "9", name := some "", callsign := some "" } 5).name =
        some s) ∧
    (({ mmsi := some "9", name := some "", callsign := some "" } :
        VesselUpdate).callsign = some "" →
      (updateExisting (mkVessel "9" 0)
        { mmsi := some "9", name := some "", callsign := some "" } 5).callsign =
        some "") :=
  C9_empty_name_not_written ⟨[mkVessel "9" 0], [], 0⟩
    { mmsi := some "9", name := some "", callsign := some "" } 5 "9"
    (mkVessel "9" 0) rfl (by decide) (by decide)

/-- C10: a successful upsert (truthy key) stamps the `last_message_time`
diagnostic with the same `now` written to the row's `last_updated`, in both
the INSERT and the UPDATE branch. -/
theorem C10_last_message_diag (st : IngestState) (u : VesselUpdate)
    (now : Int) (m : String)
    (hm : u.mmsi = some m) (hne : m ≠ "") :
    getDiag (update_vessel st u now).diags "last_message_time" =
      some (timeStr now) ∧
    (∃ w, findVessel (update_vessel st u now).vessels m = some w ∧
      w.last_updated = now) := by
  constructor
  · cases hfv : findVessel st.vessels m with
    | some v =>
      simp only [update_vessel, hm, if_neg hne, hfv]
      exact getDiag_update_same _ _ _
    | none =>
      simp only [update_vessel, hm, if_neg hne, hfv]
      exact getDiag_update_same _ _ _
  · cases hfv : findVessel st.vessels m with
    | some v =>
      exact ⟨updateExisting v u now,
        findVessel_update_vessel_found st u now m v hm hne hfv, rfl⟩
    | none =>
      exact ⟨insertNew m u now,
        findVessel_update_vessel_new st u now m hm hne hfv, rfl⟩

theorem mostRecent_cons {α : Type} (f : VesselUpdate → Option α)
    (a : VesselUpdate) (l : List VesselUpdate) :
    mostRecent f (a :: l) =
      match mostRecent f l with
      | some x => some x
      | none => f a := by
  unfold mostRecent
  rw [List.reverse_cons, List.find?_append]
  cases h : l.reverse.find? (fun u => (f u).isSome) with
  | some w =>
    have hw := List.find?_some h
    simp only [] at hw
    cases hfw : f w with
    | none => rw [hfw] at hw; simp at hw
    | some x => simp [h, hfw]
  | none =>
    cases hfa : f a with
    | some x => simp [h, List.find?, hfa]
    | none => simp [h, List.find?, hfa]

/-- If a field reaches the inserted row whenever the first update carries
it, then after folding the remaining updates the stored field equals the
most recent carried value over the whole sequence. -/
theorem mergeFold_mostRecent {α : Type} (f : VesselUpdate → Option α)
    (g : Vessel → Option α)
    (hg : ∀ v u t, g (updateExisting v u t) = ow f (g v) u)
    (v0 : Vessel) (u0 : VesselUpdate) (rest : List (VesselUpdate × Int))
    (hins : ∀ x, f u0 = some x → g v0 = some x) :
    ∀ x, mostRecent f (u0 :: rest.map Prod.fst) = some x →
      g (mergeFold v0 rest) = some x := by
  intro x hx
  rw [mergeFold_field f g hg rest v0]
  rw [mostRecent_cons] at hx
  cases h : mostRecent f (rest.map Prod.fst) with
  | some y =>
    rw [h] at hx
    simp only [] at hx
    rw [hx]
  | none =>
    rw [h] at hx
    simp only [] at hx
    simp [hins x hx]

theorem nameVal_eq_some (u : VesselUpdate) (x : String) :
    nameVal u = some x → u.name = some x := by
  unfold nameVal
  cases h : u.name with
  | none => simp
  | some s => by_cases hs : s = "" <;> simp [hs]

/-- C1 (amended): starting from a store with no row for key `m`, after a
non-empty sequence of updates to `m` each stored field equals the value of
the most recent update that carried it — where a carried name counts only
when non-empty (`nameVal`), and a carried destination counts only from the
second update on (the INSERT column list omits `destination`). -/
theorem C1_sparse_merge_amended (st : IngestState) (m : String) (hne : m ≠ "")
    (p : VesselUpdate × Int) (rest : List (VesselUpdate × Int))
    (hall : ∀ q ∈ p :: rest, q.1.mmsi = some m)
    (hfresh : findVessel st.vessels m = none) :
    ∃ w, findVessel (applyUpdates st (p :: rest)).vessels m = some w ∧
      (∀ x, mostRecent (fun u => u.latitude) (p.1 :: rest.map Prod.fst) =
        some x → w.latitude = some x) ∧
      (∀ x, mostRecent (fun u => u.longitude) (p.1 :: rest.map Prod.fst) =
        some x → w.longitude = some x) ∧
      (∀ x, mostRecent (fun u => u.speed) (p.1 :: rest.map Prod.fst) =
        some x → w.speed = some x) ∧
      (∀ x, mostRecent (fun u => u.course) (p.1 :: rest.map Prod.fst) =
        some x → w.course = some x) ∧
      (∀ x, mostRecent (fun u => u.heading) (p.1 :: rest.map Prod.fst) =
        some x → w.heading = some x) ∧
      (∀ x, mostRecent (fun u => u.vessel_type) (p.1 :: rest.map Prod.fst) =
        some x → w.vessel_type = some x) ∧
      (∀ x, mostRecent (fun u => u.callsign) (p.1 :: rest.map Prod.fst) =
        some x → w.callsign = some x) ∧
      (∀ x, mostRecent (fun u => u.nav_status) (p.1 :: rest.map Prod.fst) =
        some x → w.nav_status = some x) ∧
      (∀ x, mostRecent nameVal (p.1 :: rest.map Prod.fst) =
        some x → w.name = some x) ∧
      (∀ x, mostRecent (fun u => u.destination) (rest.map Prod.fst) =
        some x → w.destination = some x) := by
  refine ⟨mergeFold (insertNew m p.1 p.2) rest,
    applyUpdates_insert_track m hne p rest st hall hfresh,
    ?_, ?_, ?_, ?_, ?_, ?_, ?_, ?_, ?_, ?_⟩
  · exact mergeFold_mostRecent (fun u => u.latitude) (fun v => v.latitude)
      updateExisting_latitude (insertNew m p.1 p.2) p.1 rest
      (fun x hx => by simpa [insertNew] using hx)
  · exact mergeFold_mostRecent (fun u => u.longitude) (fun v => v.longitude)
      updateExisting_longitude (insertNew m p.1 p.2) p.1 rest
      (fun x hx => by simpa [insertNew] using hx)
  · exact mergeFold_mostRecent (fun u => u.speed) (fun v => v.speed)
      updateExisting_speed (insertNew m p.1 p.2) p.1 rest
      (fun x hx => by simpa [insertNew] using hx)
  · exact mergeFold_mostRecent (fun u => u.course) (fun v => v.course)
      updateExisting_course (insertNew m p.1 p.2) p.1 rest
      (fun x hx => by simpa [insertNew] using hx)
  · exact mergeFold_mostRecent (fun u => u.heading) (fun v => v.heading)
      updateExisting_heading (insertNew m p.1 p.2) p.1 rest
      (fun x hx => by simpa [insertNew] using hx)
  · exact mergeFold_mostRecent (fun u => u.vessel_type) (fun v => v.vessel_type)
      updateExisting_vessel_type (insertNew m p.1 p.2) p.1 rest
      (fun x hx => by simp [insertNew, hx])
  · exact mergeFold_mostRecent (fun u => u.callsign) (fun v => v.callsign)
      updateExisting_callsign (insertNew m p.1 p.2) p.1 rest
      (fun x hx => by simp [insertNew, hx])
  · exact mergeFold_mostRecent (fun u => u.nav_status) (fun v => v.nav_status)
      updateExisting_nav_status (insertNew m p.1 p.2) p.1 rest
      (fun x hx => by simp [insertNew, hx])
  · exact mergeFold_mostRecent nameVal (fun v => v.name)
      updateExisting_name (insertNew m p.1 p.2) p.1 rest
      (fun x hx => by simp [insertNew, nameVal_eq_some p.1 x hx])
  · intro x hx
    rw [mergeFold_field (fun u => u.destination) (fun v => v.destination)
      updateExisting_destination rest (insertNew m p.1 p.2)]
    simp [hx]

/-- The end-to-end scenario: a position report then a name report for the
same key. -/
def posReport : VesselUpdate :=
  { mmsi := some "123456789", latitude := some 10, longitude := some 20,
    speed := some 5 }

/-- The follow-up static report carrying only the name. -/
def nameReport : VesselUpdate :=
  { mmsi := some "123456789", name := some "TEST VESSEL" }

/-- C1 witness: after the position report and then the name report, the row
holds the position from the first and the name from the second. -/
theorem C1_sparse_merge_amended_witness :
    ∃ w, findVessel (applyUpdates ⟨[], [], 0⟩
        [(posReport, 100), (nameReport, 200)]).vessels "123456789" = some w ∧
      (∀ x, mostRecent (fun u => u.latitude) (posReport :: [(nameReport, 200)].map Prod.fst) =
        some x → w.latitude = some x) ∧
      (∀ x, mostRecent (fun u => u.longitude) (posReport :: [(nameReport, 200)].map Prod.fst) =
        some x → w.longitude = some x) ∧
      (∀ x, mostRecent (fun u => u.speed) (posReport :: [(nameReport, 200)].map Prod.fst) =
        some x → w.speed = some x) ∧
      (∀ x, mostRecent (fun u => u.course) (posReport :: [(nameReport, 200)].map Prod.fst) =
        some x → w.course = some x) ∧
      (∀ x, mostRecent (fun u => u.heading) (posReport :: [(nameReport, 200)].map Prod.fst) =
        some x → w.heading = some x) ∧
      (∀ x, mostRecent (fun u => u.vessel_type) (posReport :: [(nameReport, 200)].map Prod.fst) =
        some x → w.vessel_type = some x) ∧
      (∀ x, mostRecent (fun u => u.callsign) (posReport :: [(nameReport, 200)].map Prod.fst) =
        some x → w.callsign = some x) ∧
      (∀ x, mostRecent (fun u => u.nav_status) (posReport :: [(nameReport, 200)].map Prod.fst) =
        some x → w.nav_status = some x) ∧
      (∀ x, mostRecent nameVal (posReport :: [(nameReport, 200)].map Prod.fst) =
        some x → w.name = some x) ∧
      (∀ x, mostRecent (fun u => u.destination) ([(nameReport, 200)].map Prod.fst) =
        some x → w.destination = some x) :=
  C1_sparse_merge_amended ⟨[], [], 0⟩ "123456789" (by decide)
    (posReport, 100) [(nameReport, 200)] (by decide) (by decide)

/-- First update of the C1 counterexample: name and destination present. -/
def cexU1 : VesselUpdate :=
  { mmsi := some "123456789", name := some "ALPHA",
    destination := some "HAMBURG" }

/-- Second update of the C1 counterexample: the name present but empty. -/
def cexU2 : VesselUpdate :=
  { mmsi := some "123456789", name := some "" }

/-- C1 counterexample: in the sequence `cexU1, cexU2` the most recent update
carrying the name carries `""` and the most recent carrying the destination
carries `"HAMBURG"`, yet the stored row keeps name `"ALPHA"` and no
destination — so a field's stored value does not always equal the value of
the most recent update that included that field. -/
theorem C1_sparse_merge_counterexample :
    mostRecent (fun u => u.name) [cexU1, cexU2] = some "" ∧
    mostRecent (fun u => u.destination) [cexU1, cexU2] = some "HAMBURG" ∧
    (findVessel (applyUpdates ⟨[], [], 0⟩
        [(cexU1, 1), (cexU2, 2)]).vessels "123456789").map Vessel.name =
      some (some "ALPHA") ∧
    (findVessel (applyUpdates ⟨[], [], 0⟩
        [(cexU1, 1), (cexU2, 2)]).vessels "123456789").map Vessel.destination =
      some none ∧
    some "ALPHA" ≠ some "" := by
  decide

/-- The update of the C2 failing input: a first message for a fresh key that
carries a destination. -/
def destReport : VesselUpdate :=
  { mmsi := some "123456789", latitude := some 10,
    destination := some "HAMBURG" }

/-- C2: the INSERT branch drops a present destination (stored NULL), while
the present latitude is stored — evaluating the code at the failing
input. -/
theorem C2_insert_drops_destination :
    destReport.destination = some "HAMBURG" ∧
    (findVessel (update_vessel ⟨[], [], 0⟩ destReport 5).vessels
        "123456789").map Vessel.destination = some none ∧
    (findVessel (update_vessel ⟨[], [], 0⟩ destReport 5).vessels
        "123456789").map Vessel.latitude = some (some 10) := by
  decide

/-- The value of the `total_messages` diagnostic after `c` counted messages,
starting from an initial value `d0`: unchanged below 100, otherwise the last
multiple of 100 reached. -/
def expectedTotal (c : Nat) (d0 : Option String) : Option String :=
  if c < 100 then d0 else some (toString (100 * (c / 100)))

theorem update_vessel_effects (st : IngestState) (u : VesselUpdate)
    (now : Int) (m : String) (hm : u.mmsi = some m) (hne : m ≠ "") :
    (update_vessel st u now).diags =
      update_diagnostic st.diags "last_message_time" (timeStr now) ∧
    (update_vessel st u now).messageCount = st.messageCount := by
  cases hfv : findVessel st.vessels m <;>
    simp [update_vessel, hm, if_neg hne, hfv]

theorem expectedTotal_step (c : Nat) (d0 : Option String) :
    expectedTotal (c + 1) d0 =
      if (c + 1) % 100 = 0 then some (toString (c + 1))
      else expectedTotal c d0 := by
  by_cases h : (c + 1) % 100 = 0
  · have hdvd : 100 ∣ c + 1 := Nat.dvd_of_mod_eq_zero h
    have h100 : 100 ≤ c + 1 := Nat.le_of_dvd (Nat.succ_pos c) hdvd
    simp [expectedTotal, h, Nat.not_lt.mpr h100, Nat.mul_div_cancel' hdvd]
  · have hndvd : ¬ 100 ∣ c + 1 := fun hd => h (Nat.mod_eq_zero_of_dvd hd)
    rw [if_neg h]
    unfold expectedTotal
    rcases Nat.lt_or_ge (c + 1) 100 with hlt | hge
    · rw [if_pos hlt, if_pos (by omega)]
    · have hne100 : c + 1 ≠ 100 := by
        intro hh
        rw [hh] at h
        exact h rfl
      rw [if_neg (by omega), if_neg (by omega)]
      have hdiv := Nat.succ_div c 100
      rw [if_neg hndvd] at hdiv
      rw [hdiv]
      simp

/-- The counter invariant of the ingestion loop: over valid record lines the
message count advances by the number of lines and the `total_messages`
diagnostic stays at the last multiple of 100 reached. -/
theorem runLoop_total_messages :
    ∀ (lines : List (RawLine × Int)) (st : IngestState) (d0 : Option String),
      (∀ p ∈ lines, isValidRecord p.1 = true) →
      getDiag st.diags "total_messages" = expectedTotal st.messageCount d0 →
      (runLoop st lines).messageCount = st.messageCount + lines.length ∧
      getDiag (runLoop st lines).diags "total_messages" =
        expectedTotal (st.messageCount + lines.length) d0 := by
  intro lines
  induction lines with
  | nil => intro st d0 _ hd; simpa [runLoop] using hd
  | cons p rest ih =>
    intro st d0 hall hd
    obtain ⟨d, hp⟩ : ∃ d, p.1 = RawLine.record d := by
      have hv := hall p (List.mem_cons_self p rest)
      cases hl : p.1 <;> rw [hl] at hv <;> simp [isValidRecord] at hv
      exact ⟨_, rfl⟩
    have hv := hall p (List.mem_cons_self p rest)
    rw [hp] at hv
    have htr : truthy d.mmsi = true := by simpa [isValidRecord] using hv
    obtain ⟨m, hm, hne⟩ : ∃ m, d.mmsi = some m ∧ m ≠ "" := by
      cases hmm : d.mmsi with
      | none => rw [hmm] at htr; simp [truthy] at htr
      | some s =>
        rw [hmm] at htr
        exact ⟨s, rfl, by simpa [truthy] using htr⟩
    have hmv : (extractVesselData d).mmsi = some m := hm
    have heff := update_vessel_effects st (extractVesselData d) p.2 m hmv hne
    have hstep : processLine st p.2 p.1 =
        (let st1 := update_vessel st (extractVesselData d) p.2
         let mc := st1.messageCount + 1
         let st2 := { st1 with messageCount := mc }
         if mc % 100 = 0 then
           { st2 with
             diags := update_diagnostic st2.diags "total_messages" (toString mc) }
         else st2) := by
      rw [hp]
      simp only [processLine, hmv]
      rw [if_pos (by simp [truthy, hne])]
    have hTMne : ("total_messages" : String) ≠ "last_message_time" := by decide
    have hd1 : getDiag (update_vessel st (extractVesselData d) p.2).diags
        "total_messages" = expectedTotal st.messageCount d0 := by
      rw [heff.1, getDiag_update_ne _ _ _ _ hTMne, hd]
    have hmc1 : (update_vessel st (extractVesselData d) p.2).messageCount + 1 =
        st.messageCount + 1 := by rw [heff.2]
    have hst' : (processLine st p.2 p.1).messageCount = st.messageCount + 1 ∧
        getDiag (processLine st p.2 p.1).diags "total_messages" =
          expectedTotal (st.messageCount + 1) d0 := by
      rw [hstep]
      simp only []
      rw [expectedTotal_step]
      by_cases hmod : ((update_vessel st (extractVesselData d) p.2).messageCount + 1) % 100 = 0
      · rw [if_pos hmod]
        constructor
        · simp [heff.2]
        · rw [heff.2] at hmod
          rw [if_pos hmod]
          simp only []
          rw [getDiag_update_same]
          rw [hmc1]
      · rw [if_neg hmod]
        rw [heff.2] at hmod
        rw [if_neg hmod]
        exact ⟨by simp [heff.2], by simpa using hd1⟩
    have hrest : ∀ q ∈ rest, isValidRecord q.1 = true :=
      fun q hq => hall q (List.mem_cons_of_mem p hq)
    have hrun : runLoop st (p :: rest) = runLoop (processLine st p.2 p.1) rest := rfl
    rw [hrun]
    have := ih (processLine st p.2 p.1) d0 hrest (hst'.2.trans (by rw [hst'.1]))
    rw [hst'.1] at this
    constructor
    · rw [this.1]; simp [List.length_cons]; omega
    · rw [this.2]
      have : st.messageCount + 1 + rest.length =
          st.messageCount + (p :: rest).length := by
        simp [List.length_cons]; omega
      rw [this]

/-- C7 (amended): over any run of valid messages from a fresh start, the
message count equals the number of messages, and the `total_messages`
diagnostic is written only at multiples of 100, so after `n` messages it
holds the last multiple of 100 reached (unset while `n < 100`): after 250
messages it reads 200, after 300 it reads 300. -/
theorem C7_message_counter_amended (lines : List (RawLine × Int))
    (st : IngestState)
    (hall : ∀ p ∈ lines, isValidRecord p.1 = true)
    (hmc : st.messageCount = 0)
    (hd : getDiag st.diags "total_messages" = none) :
    (runLoop st lines).messageCount = lines.length ∧
    getDiag (runLoop st lines).diags "total_messages" =
      if lines.length < 100 then none
      else some (toString (100 * (lines.length / 100))) := by
  have h0 : getDiag st.diags "total_messages" =
      expectedTotal st.messageCount none := by
    rw [hd, hmc]; simp [expectedTotal]
  have h := runLoop_total_messages lines st none hall h0
  rw [hmc] at h
  simpa [expectedTotal] using h

/-- A valid record line for concrete counter runs. -/
def goodLine : RawLine := RawLine.record { mmsi := some "123456789" }

/-- C7 witness: after 250 valid messages the counter is 250 and the
diagnostic reads 200; after 300 it reads 300. -/
theorem C7_message_counter_amended_witness :
    ((runLoop ⟨[], [], 0⟩ (List.replicate 250 (goodLine, 0))).messageCount = 250 ∧
      getDiag (runLoop ⟨[], [], 0⟩ (List.replicate 250 (goodLine, 0))).diags
        "total_messages" = some (toString 200)) ∧
    ((runLoop ⟨[], [], 0⟩ (List.replicate 300 (goodLine, 0))).messageCount = 300 ∧
      getDiag (runLoop ⟨[], [], 0⟩ (List.replicate 300 (goodLine, 0))).diags
        "total_messages" = some (toString 300)) := by
  constructor
  · have h := C7_message_counter_amended (List.replicate 250 (goodLine, 0))
      ⟨[], [], 0⟩ (by intro p hp; rw [List.eq_of_mem_replicate hp]; decide)
      rfl rfl
    rw [List.length_replicate] at h
    have hval : (if (250 : Nat) < 100 then (none : Option String)
        else some (toString (100 * (250 / 100)))) = some (toString 200) := by
      decide
    rw [hval] at h
    exact h
  · have h := C7_message_counter_amended (List.replicate 300 (goodLine, 0))
      ⟨[], [], 0⟩ (by intro p hp; rw [List.eq_of_mem_replicate hp]; decide)
      rfl rfl
    rw [List.length_replicate] at h
    have hval : (if (300 : Nat) < 100 then (none : Option String)
        else some (toString (100 * (300 / 100)))) = some (toString 300) := by
      decide
    rw [hval] at h
    exact h

/-- C7 counterexample: after 250 valid messages the `total_messages`
diagnostic reads 200, not 250 — the counter diagnostic does not equal 250 as
the claim states. -/
theorem C7_message_counter_counterexample :
    getDiag (runLoop ⟨[], [], 0⟩ (List.replicate 250 (goodLine, 0))).diags
      "total_messages" = some (toString 200) ∧
    some (toString 200) ≠ some (toString 250) := by
  constructor
  · have h := runLoop_total_messages (List.replicate 250 (goodLine, 0))
      ⟨[], [], 0⟩ none
      (by intro p hp; rw [List.eq_of_mem_replicate hp]; decide)
      (by simp [expectedTotal, getDiag])
    have h2 := h.2
    rw [List.length_replicate] at h2
    have hval : expectedTotal (0 + 250) none = some (toString 200) := by decide
    rw [hval] at h2
    exact h2
  · decide

/-- C10 witness: a concrete insert stamps both the row and the diagnostic
with the same time 42. -/
theorem C10_last_message_diag_witness :
    getDiag (update_vessel ⟨[], [], 0⟩ { mmsi := some "5" } 42).diags
      "last_message_time" = some (timeStr 42) ∧
    (∃ w, findVessel (update_vessel ⟨[], [], 0⟩
        { mmsi := some "5" } 42).vessels "5" = some w ∧
      w.last_updated = 42) :=
  C10_last_message_diag ⟨[], [], 0⟩ { mmsi := some "5" } 42 "5" rfl (by decide)
